import Mathlib

/-!
Verification of the extraction core of `ipa-shiken-fetcher` (src/src/main.rs).

The development shallowly embeds:
* the parsed HTML tree that the `scraper` crate hands to `extract_kakomon`
  (lenient HTML parsing by html5ever is elided: a document enters the model
  as its already-parsed element tree);
* the subset of the `url` crate (WHATWG URL parsing / joining) that
  `extract_kakomon` exercises: scheme splitting, special-scheme authority
  parsing, path merging with dot-segment resolution, query/fragment
  splitting.  Percent-encoding, userinfo/port separation, IDNA, the `file`
  scheme and whitespace stripping are elided, and the authority is kept as a
  single host string;
* `extract_kakomon` itself, with each `.unwrap()` of the Rust source modelled
  as `Except.error ()` (a panic aborting the extraction);
* the Slack payload built in `main` as a small JSON AST.
-/

/-- A node of the parsed HTML tree: an element with a tag name, an attribute
list and children, or a text node.  Duplicate attributes keep the first
occurrence, as html5ever does, so attribute lookup is first-match. -/
inductive Node where
  | element (tag : String) (attrs : List (String × String)) (children : List Node)
  | text (s : String)

/-- Attribute lookup on an element (`ElementRef::value().attr` in scraper). -/
def Node.attr : Node → String → Option String
  | .element _ attrs _, name => (attrs.find? (fun p => p.1 == name)).map (·.2)
  | .text _, _ => none

/-- Tag of an element node, `none` for a text node. -/
def Node.tagOf : Node → Option String
  | .element t _ _ => some t
  | .text _ => none

mutual
/-- A node followed by all of its descendants, in document (pre-)order. -/
def nodeSelfDesc : Node → List Node
  | .element t a cs => .element t a cs :: nodeDescList cs
  | .text s => [.text s]
/-- All nodes of a forest, in document (pre-)order. -/
def nodeDescList : List Node → List Node
  | [] => []
  | n :: rest => nodeSelfDesc n ++ nodeDescList rest
end

/-- Strict descendants of a node, in document order.  `ElementRef::select`
in scraper iterates over the subtree of the element. -/
def Node.descendants : Node → List Node
  | .element _ _ cs => nodeDescList cs
  | .text _ => []

/-- True for an element node with the given tag. -/
def isElemTag (t : String) (n : Node) : Bool :=
  n.tagOf == some t

/-- `element.select(Selector::parse(t))` for a plain tag-name selector:
the descendant elements with that tag, in document order. -/
def selectTag (t : String) (n : Node) : List Node :=
  n.descendants.filter (isElemTag t)

mutual
/-- Elements matching the child combinator `ul > li` inside a subtree:
`li` elements whose parent element has tag `ul`.  `pt` is the tag of the
parent of the node under inspection. -/
def ulLiNode (pt : String) : Node → List Node
  | .element t a cs =>
      (if t == "li" && pt == "ul" then [Node.element t a cs] else []) ++ ulLiList t cs
  | .text _ => []
/-- `ulLiNode` over a forest whose members share the parent tag `pt`. -/
def ulLiList (pt : String) : List Node → List Node
  | [] => []
  | n :: rest => ulLiNode pt n ++ ulLiList pt rest
end

/-- `elem.select(Selector::parse("ul > li"))`: matching descendants of
`elem`, in document order. -/
def selectUlLi : Node → List Node
  | .element t _ cs => ulLiList t cs
  | .text _ => []

mutual
/-- Concatenation of all descendant text nodes of a node
(`ElementRef::text()` collected and joined with `""`). -/
def nodeText : Node → String
  | .text s => s
  | .element _ _ cs => nodeTextList cs
/-- `nodeText` over a forest. -/
def nodeTextList : List Node → String
  | [] => ""
  | n :: rest => nodeText n ++ nodeTextList rest
end

/-- Concatenation of a list of strings, in order. -/
def strConcat : List String → String
  | [] => ""
  | s :: rest => s ++ strConcat rest

/-!  URL model (the subset of the `url` crate used by `extract_kakomon`). -/

/-- Parse errors of the modelled URL parser, named after the `url` crate's
`ParseError` variants they stand for. -/
inductive ParseErr where
  | relativeUrlWithoutBase
  | emptyHost
deriving DecidableEq

/-- A parsed URL.  `host = some h` is a hierarchical URL of a special scheme
(authority kept as one string, userinfo/port elided); `host = none` is a
cannot-be-a-base URL whose serialized path is `cbPath`. -/
structure Url where
  scheme : String
  host : Option String
  path : List String
  cbPath : String
  query : Option String
  frag : Option String
deriving DecidableEq

/-- The special schemes of the WHATWG standard handled by the model
(`file` elided). -/
def specialSchemes : List String := ["http", "https", "ws", "wss", "ftp"]

/-- ASCII lowercasing of a string, character by character. -/
def lowerStr (s : String) : String :=
  String.mk (s.data.map Char.toLower)

/-- First character of a scheme: an ASCII letter. -/
def isSchemeStart (c : Char) : Bool := c.isAlpha

/-- Subsequent characters of a scheme. -/
def isSchemeChar (c : Char) : Bool := c.isAlphanum || c == '+' || c == '-' || c == '.'

/-- Scan for `scheme ":"` at the head of the input; produces the lowercased
scheme and the remainder after the colon, or `none` when the input has no
valid scheme. -/
def splitSchemeAux (acc : List Char) : List Char → Option (String × String)
  | [] => none
  | c :: rest =>
    if c == ':' then
      if acc.isEmpty then none
      else some (lowerStr (String.mk acc.reverse), String.mk rest)
    else if (if acc.isEmpty then isSchemeStart c else isSchemeChar c) then
      splitSchemeAux (c :: acc) rest
    else none

/-- Split a URL string into its scheme and the part after the colon. -/
def splitScheme (s : String) : Option (String × String) :=
  splitSchemeAux [] s.data

/-- Slash characters: the WHATWG parser treats `\` like `/` in special URLs. -/
def isSlash (c : Char) : Bool := c == '/' || c == '\\'

/-- Drop the leading run of slash characters
(the special-authority-ignore-slashes state). -/
def dropSlashes : List Char → List Char
  | [] => []
  | c :: rest => if isSlash c then dropSlashes rest else c :: rest

/-- Split at the first occurrence of the delimiter `d`; the second component
is `none` when `d` does not occur. -/
def splitFirst (d : Char) : List Char → List Char × Option (List Char)
  | [] => ([], none)
  | c :: rest =>
    if c == d then ([], some rest)
    else
      let p := splitFirst d rest
      (c :: p.1, p.2)

/-- Split on slash characters; always yields at least one (possibly empty)
segment. -/
def splitSlashesAux (cur : List Char) : List Char → List String
  | [] => [String.mk cur.reverse]
  | c :: rest =>
    if isSlash c then String.mk cur.reverse :: splitSlashesAux [] rest
    else splitSlashesAux (c :: cur) rest

/-- Dot-segment resolution of a path: `.` is dropped, `..` pops a segment,
and a trailing `.` or `..` leaves a trailing empty segment (trailing slash),
following the WHATWG path state. -/
def resolveDots (segs : List String) : List String :=
  let r := segs.foldl
    (fun acc s =>
      if s == "." then acc
      else if s == ".." then acc.dropLast
      else acc ++ [s]) []
  match segs.getLast? with
  | some s => if s == "." || s == ".." then r ++ [""] else r
  | none => r

/-- Path segments of the characters following the authority (leading slash
dropped, dot segments resolved, empty path serialized as `/`). -/
def pathOf (p : List Char) : List String :=
  match p with
  | [] => [""]
  | c :: rest =>
    let raw := if isSlash c then splitSlashesAux [] rest else splitSlashesAux [] (c :: rest)
    let r := resolveDots raw
    if r.isEmpty then [""] else r

/-- Parse the part after `scheme ":"` of a special-scheme URL: skip slashes,
read the authority (empty authority is an error), then path, query and
fragment. -/
def parseSpecialRest (sc : String) (l : List Char) : Except ParseErr Url :=
  let l2 := dropSlashes l
  let hostChars := l2.takeWhile (fun c => !(isSlash c || c == '?' || c == '#'))
  let rest := l2.dropWhile (fun c => !(isSlash c || c == '?' || c == '#'))
  if hostChars.isEmpty then .error .emptyHost
  else
    let p1 := splitFirst '#' rest
    let p2 := splitFirst '?' p1.1
    .ok { scheme := sc
          host := some (lowerStr (String.mk hostChars))
          path := pathOf p2.1
          cbPath := ""
          query := (p2.2).map String.mk
          frag := (p1.2).map String.mk }

/-- `Url::parse`: parse an absolute URL on its own (no base). -/
def Url.parse (s : String) : Except ParseErr Url :=
  match splitScheme s with
  | none => .error .relativeUrlWithoutBase
  | some (sc, rest) =>
    if sc ∈ specialSchemes then
      parseSpecialRest sc rest.data
    else
      let p1 := splitFirst '#' rest.data
      let p2 := splitFirst '?' p1.1
      .ok { scheme := sc
            host := none
            path := []
            cbPath := String.mk p2.1
            query := (p2.2).map String.mk
            frag := (p1.2).map String.mk }

/-- Serialize a URL back to a string (`Url::to_string`). -/
def Url.toString (u : Url) : String :=
  (match u.host with
   | some h => u.scheme ++ "://" ++ h ++ strConcat (u.path.map (fun seg => "/" ++ seg))
   | none => u.scheme ++ ":" ++ u.cbPath)
  ++ (match u.query with | some q => "?" ++ q | none => "")
  ++ (match u.frag with | some f => "#" ++ f | none => "")

/-- An absolute-path reference (begins with one slash): keep the base's
scheme and authority, replace path, query and fragment. -/
def absPathJoin (base : Url) (l : List Char) : Except ParseErr Url :=
  let p1 := splitFirst '#' l
  let p2 := splitFirst '?' p1.1
  .ok { base with path := pathOf p2.1
                  query := (p2.2).map String.mk
                  frag := (p1.2).map String.mk }

/-- A relative-path reference: merge with the base's path (drop its last
segment), resolve dot segments, replace query and fragment. -/
def mergePathJoin (base : Url) (l : List Char) : Except ParseErr Url :=
  let p1 := splitFirst '#' l
  let p2 := splitFirst '?' p1.1
  let segs := splitSlashesAux [] p2.1
  let r := resolveDots (base.path.dropLast ++ segs)
  .ok { base with path := if r.isEmpty then [""] else r
                  query := (p2.2).map String.mk
                  frag := (p1.2).map String.mk }

/-- Resolve a scheme-less reference against a base (the WHATWG relative
state).  A cannot-be-a-base base only accepts fragment references. -/
def joinRelative (base : Url) (l : List Char) : Except ParseErr Url :=
  match base.host with
  | none =>
    match l with
    | c :: fr =>
      if c == '#' then .ok { base with frag := some (String.mk fr) }
      else .error .relativeUrlWithoutBase
    | [] => .error .relativeUrlWithoutBase
  | some _ =>
    match l with
    | [] => .ok { base with frag := none }
    | c :: rest =>
      if c == '#' then .ok { base with frag := some (String.mk rest) }
      else if c == '?' then
        let p := splitFirst '#' rest
        .ok { base with query := some (String.mk p.1), frag := (p.2).map String.mk }
      else if isSlash c then
        match rest with
        | c2 :: rest2 =>
          if isSlash c2 then parseSpecialRest base.scheme (c2 :: rest2)
          else absPathJoin base (c :: rest)
        | [] => absPathJoin base (c :: rest)
      else mergePathJoin base (c :: rest)

/-- `base.join(s)` of the `url` crate: parse `s` with `base` as base URL.
A reference whose scheme equals the base's special scheme is resolved
relative to the base; any other scheme-carrying reference parses on its
own. -/
def Url.join (base : Url) (s : String) : Except ParseErr Url :=
  match splitScheme s with
  | some (sc, rest) =>
    if sc == base.scheme && sc ∈ specialSchemes then joinRelative base rest.data
    else Url.parse s
  | none => joinRelative base s.data

/-- Two leading slash characters. -/
def twoSlashesB : List Char → Bool
  | c1 :: c2 :: _ => isSlash c1 && isSlash c2
  | _ => false

/-- A network-path reference: begins with two slash characters.  Joining it
replaces the base's authority. -/
def isNetworkPathRef (s : String) : Bool :=
  twoSlashesB s.data

/-!  The extractor (`extract_kakomon` and its helpers in src/src/main.rs). -/

/-- The extraction record of the source: a title and an accumulated text. -/
structure Kakomon where
  title : String
  text : String
deriving DecidableEq

/-- Resolution of an href/src string as `extract_kakomon` performs it:
`Url::parse(href)` and on failure `url.join(href)`, whose `.unwrap()` is a
panic, modelled as `Except.error ()`. -/
def resolveStr (base : Url) (h : String) : Except Unit String :=
  match Url.parse h with
  | .ok u => .ok (Url.toString u)
  | .error _ =>
    match base.join h with
    | .ok u => .ok (Url.toString u)
    | .error _ => .error ()

/-- One step of the link/image scans: read the attribute (`.unwrap()` of a
missing attribute is a panic), resolve it, and append a newline. -/
def resolveAttr (base : Url) (name : String) (n : Node) : Except Unit String :=
  match n.attr name with
  | none => .error ()
  | some h => (resolveStr base h).map (fun s => s ++ "\n")

/-- Fold step of the link/image scans: append the resolved line to the text
accumulator. -/
def appendResolved (base : Url) (name : String) (acc : String) (n : Node) :
    Except Unit String :=
  (resolveAttr base name n).map (fun s => acc ++ s)

/-- The `ansbg` inner loop: `for (idx, li) in select("ul > li").enumerate()`,
appending `"{idx+1}. "`, the item's text and a newline to the accumulator. -/
def ansbgLoop (i : Nat) : List Node → String → String
  | [], acc => acc
  | li :: rest, acc => ansbgLoop (i + 1) rest (acc ++ (toString (i + 1) ++ ". " ++ nodeText li ++ "\n"))

/-- One step of the body scan over the descendant `div`s of the fragment:
dispatch on the exact `class` attribute value. -/
def bodyStep (acc : String × String) (d : Node) : String × String :=
  match d.attr "class" with
  | some "mondai" => (acc.1 ++ nodeText d ++ "\n", acc.2)
  | some "anslink" => (acc.1, acc.2 ++ nodeText d)
  | some "ansbg" => (ansbgLoop 0 (selectUlLi d) acc.1, acc.2)
  | _ => acc

/-- The body scan of a fragment started from empty accumulators; first
component is the text contribution, second the title contribution. -/
def bodyScan (frag : Node) : String × String :=
  (selectTag "div" frag).foldl bodyStep ("", "")

/-- Processing of the found `kako` fragment: link scan, body scan, image
scan, threading the shared `text` accumulator through all three and the
`title` accumulator through the body scan, as the Rust loop does. -/
def processKakomon (frag : Node) (base : Url) : Except Unit Kakomon :=
  match (selectTag "a" frag).foldlM (appendResolved base "href") "" with
  | .error e => .error e
  | .ok t1 =>
    let p := (selectTag "div" frag).foldl bodyStep (t1, "")
    match (selectTag "img" frag).foldlM (appendResolved base "src") p.1 with
    | .error e => .error e
    | .ok t3 => .ok { title := p.2, text := t3 }

/-- `extract_kakomon`: iterate over the `div` elements of the document in
document order; the first one whose `class` attribute is exactly `"kako"`
is processed and its record returned; a document without one yields
`none`.  `Except.error ()` is a panic of the Rust code aborting the
extraction. -/
def extract_kakomon (doc : Node) (url : Url) : Except Unit (Option Kakomon) :=
  match (selectTag "div" doc).find? (fun d => d.attr "class" == some "kako") with
  | some frag => (processKakomon frag url).map some
  | none => .ok none

/-!  The Slack payload built in `main` (the Record Formatter). -/

/-- A small JSON AST for the payload `main` builds with the `object!`
macro of the `json` crate. -/
inductive Json where
  | str (s : String)
  | bool (b : Bool)
  | arr (l : List Json)
  | obj (l : List (String × Json))

/-- The payload of `main`: a `blocks` array of a header block carrying the
title, a divider, and a section block carrying the text. -/
def buildSlackBody (k : Kakomon) : Json :=
  .obj [("blocks", .arr
    [ .obj [("type", .str "header"),
            ("text", .obj [("type", .str "plain_text"), ("text", .str k.title),
                           ("emoji", .bool true)])],
      .obj [("type", .str "divider")],
      .obj [("type", .str "section"),
            ("text", .obj [("type", .str "mrkdwn"), ("text", .str k.text)])] ])]

/-- The `blocks` array of a payload. -/
def jsonBlocks : Json → Option (List Json)
  | .obj l =>
    match (l.find? (fun p => p.1 == "blocks")).map (·.2) with
    | some (Json.arr bs) => some bs
    | _ => none
  | _ => none

/-- The inner `text.text` string of a block. -/
def jsonTextField : Json → Option String
  | .obj l =>
    match (l.find? (fun p => p.1 == "text")).map (·.2) with
    | some (Json.obj tl) =>
      match (tl.find? (fun p => p.1 == "text")).map (·.2) with
      | some (Json.str s) => some s
      | _ => none
    | _ => none
  | _ => none

/-- The header text of a payload: `blocks[0].text.text`. -/
def payloadHeaderText (j : Json) : Option String :=
  match jsonBlocks j with
  | some (b :: _) => jsonTextField b
  | _ => none

/-- The section text of a payload: `blocks[2].text.text`. -/
def payloadSectionText (j : Json) : Option String :=
  match jsonBlocks j with
  | some (_ :: _ :: b :: _) => jsonTextField b
  | _ => none

/-!  Concrete documents and URLs used by the concrete theorems below. -/

/-- The base URL `http://h.example/dir/page.html`. -/
def cBase : Url :=
  { scheme := "http", host := some "h.example", path := ["dir", "page.html"],
    cbPath := "", query := none, frag := none }

/-- A `kako` fragment whose link element carries no `href` attribute. -/
def c1frag : Node :=
  .element "div" [("class", "kako")]
    [ .element "a" [] [.text "a link element with no href"],
      .element "div" [("class", "mondai")] [.text "Q"] ]

/-- A document containing `c1frag`. -/
def c1doc : Node :=
  .element "html" [] [.element "body" [] [c1frag]]

/-- A `kako` fragment whose image element carries no `src` attribute. -/
def c1wfrag : Node :=
  .element "div" [("class", "kako")] [.element "img" [] []]

/-- A document containing `c1wfrag`. -/
def c1wdoc : Node :=
  .element "html" [] [.element "body" [] [c1wfrag]]

/-- A `kako` fragment whose link element's href is `"//"`, which neither
parses on its own nor joins against an http base. -/
def c2frag : Node :=
  .element "div" [("class", "kako")] [.element "a" [("href", "//")] [.text "bad"]]

/-- A document containing `c2frag`. -/
def c2doc : Node :=
  .element "html" [] [.element "body" [] [c2frag]]

/-- `http://h.example/dir/q31.html`, the join of `q31.html` against `cBase`. -/
def c2u : Url :=
  { scheme := "http", host := some "h.example", path := ["dir", "q31.html"],
    cbPath := "", query := none, frag := none }

/-- A `span` element carrying the marker class `kako`. -/
def c3span : Node :=
  .element "span" [("class", "kako")] [.text "marker class on a span"]

/-- A document whose only marker-classed element is the span `c3span`. -/
def c3doc : Node :=
  .element "html" [] [.element "body" [] [c3span]]

/-- A document with no `kako`-classed element at all. -/
def c3adoc : Node :=
  .element "html" [] [.element "body" [] [.element "div" [("class", "other")] []]]

/-- The first of two `kako` divs of `c3bdoc`. -/
def c3bfrag : Node :=
  .element "div" [("class", "kako")] [.element "div" [("class", "mondai")] [.text "Q1"]]

/-- A document with two `kako` divs; only the first is used. -/
def c3bdoc : Node :=
  .element "html" []
    [.element "body" [] [c3bfrag, .element "div" [("class", "kako")] [.text "second"]]]

/-- A full `kako` fragment: link, statement, title, option list and image. -/
def c4frag : Node :=
  .element "div" [("class", "kako")]
    [ .element "a" [("href", "/p.html")] [.text "full item"],
      .element "div" [("class", "mondai")] [.text "Q?"],
      .element "div" [("class", "anslink")] [.text "T"],
      .element "div" [("class", "ansbg")]
        [ .element "ul" []
            [ .element "li" [] [.text "x"],
              .element "li" [] [.text "y"] ] ],
      .element "img" [("src", "/i.png")] [] ]

/-- A document containing `c4frag`. -/
def c4doc : Node :=
  .element "html" [] [.element "body" [] [c4frag]]

/-- The resolved link lines of `c4frag`. -/
def c4ls : List String := ["http://h.example/p.html\n"]

/-- The resolved image lines of `c4frag`. -/
def c4is : List String := ["http://h.example/i.png\n"]

/-- The absolute URL `http://x.example/a`. -/
def c6u : Url :=
  { scheme := "http", host := some "x.example", path := ["a"],
    cbPath := "", query := none, frag := none }

/-- A second, different base URL. -/
def c6base2 : Url :=
  { scheme := "https", host := some "other.example", path := [""],
    cbPath := "", query := none, frag := none }

/-- `http://b.example/y`: the join of the network-path reference
`//b.example/y` against `cBase`; its authority differs from the base's. -/
def c7u : Url :=
  { scheme := "http", host := some "b.example", path := ["y"],
    cbPath := "", query := none, frag := none }

/-- The join of the relative reference `q31.html` against `cBase`. -/
def c7w : Url :=
  { scheme := "http", host := some "h.example", path := ["dir", "q31.html"],
    cbPath := "", query := none, frag := none }

/-- A document whose divs carry `kako` only among other classes or as a
substring, never as the exact attribute value. -/
def c8doc : Node :=
  .element "html" []
    [.element "body" []
      [ .element "div" [("class", "kako extra")] [.text "multi-class"],
        .element "div" [("class", "xkako")] [] ]]

/-- The record extracted from `c4frag`. -/
def c10k : Kakomon :=
  { title := "T", text := "http://h.example/p.html\nQ?\n1. x\n2. y\nhttp://h.example/i.png\n" }

theorem strAppendNil (a : String) : a ++ "" = a := by
  cases a
  show String.mk _ = String.mk _
  simp [String.append]

theorem strNilAppend (a : String) : "" ++ a = a := by
  cases a
  show String.mk _ = String.mk _
  simp [String.append]

theorem strAppendAssoc (a b c : String) : a ++ b ++ c = a ++ (b ++ c) := by
  cases a
  cases b
  cases c
  show String.mk _ = String.mk _
  simp [String.append]

/-!  Helper lemmas. -/

theorem foldlM_appendResolved (base : Url) (name : String) (l : List Node) :
    ∀ tx : String, l.foldlM (appendResolved base name) tx
      = (l.mapM (resolveAttr base name)).map (fun ls => tx ++ strConcat ls) := by
  induction l with
  | nil =>
    intro tx
    rw [List.foldlM_nil, List.mapM_nil]
    show Except.ok tx = Except.ok (tx ++ strConcat [])
    rw [show strConcat [] = "" from rfl, strAppendNil]
  | cons x xs ih =>
    intro tx
    rw [List.foldlM_cons, List.mapM_cons]
    cases hx : resolveAttr base name x with
    | error e =>
      cases e
      show (appendResolved base name tx x >>= _) = _
      rw [show appendResolved base name tx x = Except.error () from by
        rw [appendResolved, hx]; rfl]
      rfl
    | ok s =>
      show (appendResolved base name tx x >>= _) = _
      rw [show appendResolved base name tx x = Except.ok (tx ++ s) from by
        rw [appendResolved, hx]; rfl]
      show List.foldlM (appendResolved base name) (tx ++ s) xs = _
      rw [ih (tx ++ s)]
      cases hxs : xs.mapM (resolveAttr base name) with
      | error e => rfl
      | ok ls =>
        show Except.ok (tx ++ s ++ strConcat ls) = Except.ok (tx ++ (s ++ strConcat ls))
        rw [strAppendAssoc]

theorem foldlM_error_of_missing (base : Url) (name : String) (l : List Node) :
    ∀ tx : String, l.any (fun n => (n.attr name).isNone) = true →
      l.foldlM (appendResolved base name) tx = .error () := by
  induction l with
  | nil => intro tx h; simp at h
  | cons x xs ih =>
    intro tx h
    rw [List.any_cons] at h
    rw [List.foldlM_cons]
    cases hx : x.attr name with
    | none =>
      show (appendResolved base name tx x >>= _) = _
      rw [show appendResolved base name tx x = Except.error () from by
        rw [appendResolved, resolveAttr, hx]; rfl]
      rfl
    | some v =>
      have hxs : xs.any (fun n => (n.attr name).isNone) = true := by
        rw [hx] at h; simpa using h
      show (appendResolved base name tx x >>= _) = _
      cases ha : appendResolved base name tx x with
      | error e => cases e; rfl
      | ok s =>
        show List.foldlM (appendResolved base name) s xs = _
        exact ih s hxs

theorem ansbgLoop_enum (l : List Node) :
    ∀ (i : Nat) (acc : String), ansbgLoop i l acc
      = acc ++ strConcat ((List.enumFrom i l).map
          (fun p => toString (p.1 + 1) ++ ". " ++ nodeText p.2 ++ "\n")) := by
  induction l with
  | nil => intro i acc; rw [ansbgLoop]; show acc = acc ++ ""; rw [strAppendNil]
  | cons x xs ih =>
    intro i acc
    rw [ansbgLoop, ih (i + 1)]
    show acc ++ _ ++ _ = acc ++ (_ ++ _)
    rw [strAppendAssoc]

theorem ansbgLoop_shift (l : List Node) (acc : String) (i : Nat) :
    ansbgLoop i l acc = acc ++ ansbgLoop i l "" := by
  rw [ansbgLoop_enum, ansbgLoop_enum, strNilAppend]

theorem bodyStep_shift (p : String × String) (d : Node) :
    bodyStep p d = (p.1 ++ (bodyStep ("", "") d).1, p.2 ++ (bodyStep ("", "") d).2) := by
  unfold bodyStep
  split
  · show (p.1 ++ nodeText d ++ "\n", p.2) = (p.1 ++ ("" ++ nodeText d ++ "\n"), p.2 ++ "")
    rw [strNilAppend, strAppendNil, strAppendAssoc]
  · show (p.1, p.2 ++ nodeText d) = (p.1 ++ "", p.2 ++ ("" ++ nodeText d))
    rw [strNilAppend, strAppendNil]
  · show (ansbgLoop 0 (selectUlLi d) p.1, p.2)
      = (p.1 ++ ansbgLoop 0 (selectUlLi d) "", p.2 ++ "")
    rw [ansbgLoop_shift _ p.1, strAppendNil]
  · show p = (p.1 ++ "", p.2 ++ "")
    rw [strAppendNil, strAppendNil]

theorem bodyFold_shift (l : List Node) :
    ∀ p : String × String, l.foldl bodyStep p
      = (p.1 ++ (l.foldl bodyStep ("", "")).1, p.2 ++ (l.foldl bodyStep ("", "")).2) := by
  induction l with
  | nil => intro p; show p = (p.1 ++ "", p.2 ++ ""); rw [strAppendNil, strAppendNil]
  | cons d xs ih =>
    intro p
    rw [List.foldl_cons, List.foldl_cons, ih (bodyStep p d), ih (bodyStep ("", "") d),
      bodyStep_shift p d]
    show (p.1 ++ (bodyStep ("", "") d).1 ++ _, p.2 ++ (bodyStep ("", "") d).2 ++ _)
      = (p.1 ++ ((bodyStep ("", "") d).1 ++ _), p.2 ++ ((bodyStep ("", "") d).2 ++ _))
    rw [strAppendAssoc, strAppendAssoc]

theorem bodyStep_title_anslink (p : String × String) (d : Node)
    (h : d.attr "class" = some "anslink") :
    bodyStep p d = (p.1, p.2 ++ nodeText d) := by
  unfold bodyStep
  rw [h]
  rfl

theorem bodyStep_title_other (p : String × String) (d : Node)
    (h : d.attr "class" ≠ some "anslink") :
    (bodyStep p d).2 = p.2 := by
  unfold bodyStep
  split
  · rfl
  · rename_i heq
    exact absurd heq h
  · rfl
  · rfl

/-- The title accumulator collects exactly the inner texts of the
`anslink`-classed `div`s, in order, with no separator and no newline. -/
theorem bodyFold_title (l : List Node) :
    (l.foldl bodyStep ("", "")).2
      = strConcat (l.filterMap
          (fun d => if d.attr "class" == some "anslink" then some (nodeText d) else none)) := by
  induction l with
  | nil => rfl
  | cons d xs ih =>
    rw [List.foldl_cons, bodyFold_shift xs (bodyStep ("", "") d), List.filterMap_cons]
    by_cases h : d.attr "class" = some "anslink"
    · rw [bodyStep_title_anslink ("", "") d h]
      simp only [h, beq_self_eq_true, if_pos]
      show ("" ++ nodeText d) ++ _ = nodeText d ++ _
      rw [strNilAppend, ih]
    · rw [bodyStep_title_other ("", "") d h]
      have hb : (d.attr "class" == some "anslink") = false := by
        simpa using h
      simp only [hb]
      show ("" : String) ++ _ = _
      rw [strNilAppend, ih]
      rfl

theorem parseSpecialRest_fields (sc : String) (l : List Char) (u : Url)
    (h : parseSpecialRest sc l = .ok u) : u.scheme = sc := by
  simp only [parseSpecialRest] at h
  split at h
  · exact absurd h (by simp)
  · cases h
    rfl

theorem dropSlashes_cons (c : Char) (l : List Char) (h : isSlash c = true) :
    dropSlashes (c :: l) = dropSlashes l := by
  rw [show dropSlashes (c :: l) = if isSlash c = true then dropSlashes l else c :: l from rfl, h]
  simp

theorem parseSpecialRest_slash (sc : String) (c : Char) (l : List Char)
    (h : isSlash c = true) :
    parseSpecialRest sc (c :: l) = parseSpecialRest sc l := by
  unfold parseSpecialRest
  rw [dropSlashes_cons c l h]

theorem joinRelative_props (base : Url) (l : List Char) (u : Url)
    (h : joinRelative base l = .ok u) :
    u.scheme = base.scheme ∧
      (u.host = base.host ∨
        (twoSlashesB l = true ∧ parseSpecialRest base.scheme l = .ok u)) := by
  unfold joinRelative at h
  split at h
  · -- base.host = none
    rename_i hb
    split at h
    · -- l = c :: fr
      split at h
      · cases h
        exact ⟨rfl, Or.inl (by rw [hb])⟩
      · exact absurd h (by simp)
    · exact absurd h (by simp)
  · -- base.host = some _
    rename_i bh hb
    split at h
    · -- l = []
      cases h
      exact ⟨rfl, Or.inl rfl⟩
    · -- l = c :: rest
      rename_i c rest
      split at h
      · cases h
        exact ⟨rfl, Or.inl rfl⟩
      · split at h
        · cases h
          exact ⟨rfl, Or.inl rfl⟩
        · split at h
          · -- isSlash c
            rename_i h3
            split at h
            · -- rest = c2 :: rest2
              rename_i c2 rest2
              split at h
              · -- isSlash c2 : network-path reference
                rename_i h4
                refine ⟨parseSpecialRest_fields _ _ _ h, Or.inr ⟨?_, ?_⟩⟩
                · show (isSlash c && isSlash c2) = true
                  rw [h3, h4]
                  rfl
                · rw [parseSpecialRest_slash _ c _ h3]
                  exact h
              · unfold absPathJoin at h
                cases h
                exact ⟨rfl, Or.inl rfl⟩
            · -- rest = []
              unfold absPathJoin at h
              cases h
              exact ⟨rfl, Or.inl rfl⟩
          · unfold mergePathJoin at h
            cases h
            exact ⟨rfl, Or.inl rfl⟩

theorem processKakomon_eq (frag : Node) (base : Url) (ls is2 : List String)
    (h2 : (selectTag "a" frag).mapM (resolveAttr base "href") = .ok ls)
    (h3 : (selectTag "img" frag).mapM (resolveAttr base "src") = .ok is2) :
    processKakomon frag base
      = .ok { title := (bodyScan frag).2,
              text := strConcat ls ++ (bodyScan frag).1 ++ strConcat is2 } := by
  have e1 : (selectTag "a" frag).foldlM (appendResolved base "href") "" = .ok (strConcat ls) := by
    rw [foldlM_appendResolved base "href" _ "", h2]
    show Except.ok ("" ++ strConcat ls) = _
    rw [strNilAppend]
  have e3 : ∀ tx : String, (selectTag "img" frag).foldlM (appendResolved base "src") tx
      = .ok (tx ++ strConcat is2) := by
    intro tx
    rw [foldlM_appendResolved base "src" _ tx, h3]
    rfl
  simp only [processKakomon, e1, e3]
  rw [bodyFold_shift (selectTag "div" frag) (strConcat ls, "")]
  rfl

theorem processKakomon_title (frag : Node) (base : Url) (k : Kakomon)
    (h : processKakomon frag base = .ok k) : k.title = (bodyScan frag).2 := by
  unfold processKakomon at h
  cases hl : (selectTag "a" frag).foldlM (appendResolved base "href") "" with
  | error e => rw [hl] at h; simp at h
  | ok t1 =>
    rw [hl] at h
    dsimp only at h
    cases hi : (selectTag "img" frag).foldlM (appendResolved base "src")
        ((selectTag "div" frag).foldl bodyStep (t1, "")).1 with
    | error e => rw [hi] at h; simp at h
    | ok t3 =>
      rw [hi] at h
      dsimp only at h
      cases h
      show ((selectTag "div" frag).foldl bodyStep (t1, "")).2 = _
      rw [bodyFold_shift (selectTag "div" frag) (t1, "")]
      show "" ++ (bodyScan frag).2 = _
      rw [strNilAppend]

/-!  The claims. -/

/-- Claim C1, counterexample: `c1doc` contains a `kako` fragment with a link
element lacking `href`, and extraction does not skip it or record a
per-element error: the `.unwrap()` panics, so the whole extraction aborts
with no record, contradicting the claim that extraction still completes
and returns a record. -/
theorem claim_C1_counterexample :
    (selectTag "a" c1frag).any (fun n => (n.attr "href").isNone) = true ∧
    extract_kakomon c1doc cBase = .error () :=
  ⟨rfl, rfl⟩

/-- Claim C1 (amended): whenever the found `kako` fragment contains a link
element without `href` or an image element without `src`, the extraction
panics (`.unwrap()` of a missing attribute) and aborts as a whole: no
record is returned for the fragment. -/
theorem claim_C1_amended (doc : Node) (base : Url) (frag : Node)
    (h1 : (selectTag "div" doc).find? (fun d => d.attr "class" == some "kako") = some frag)
    (h2 : ((selectTag "a" frag).any (fun n => (n.attr "href").isNone)
        || (selectTag "img" frag).any (fun n => (n.attr "src").isNone)) = true) :
    extract_kakomon doc base = .error () := by
  unfold extract_kakomon
  rw [h1]
  dsimp only
  unfold processKakomon
  rw [Bool.or_eq_true] at h2
  cases h2 with
  | inl ha =>
    rw [foldlM_error_of_missing base "href" _ "" ha]
    rfl
  | inr hi =>
    cases hl : (selectTag "a" frag).foldlM (appendResolved base "href") "" with
    | error e => cases e; rfl
    | ok t1 =>
      dsimp only
      rw [foldlM_error_of_missing base "src" _ _ hi]
      rfl

/-- Claim C1, witness: a fragment whose image element has no `src` aborts
the extraction. -/
theorem claim_C1_amended_witness : extract_kakomon c1wdoc cBase = .error () :=
  claim_C1_amended c1wdoc cBase c1wfrag rfl rfl

/-- Claim C2, counterexample: the href string `"//"` is present on a link
element of `c2doc`'s fragment, fails to parse standalone, fails to join
against the base (empty host), and the `.unwrap()` of the failed join
panics: extraction aborts instead of returning a record, contradicting
the claim that a record is returned for every href string. -/
theorem claim_C2_counterexample :
    (Node.element "a" [("href", "//")] [Node.text "bad"]).attr "href" = some "//" ∧
    Url.parse "//" = .error .relativeUrlWithoutBase ∧
    Url.join cBase "//" = .error .emptyHost ∧
    extract_kakomon c2doc cBase = .error () :=
  ⟨rfl, rfl, rfl, rfl⟩

/-- Claim C2 (amended): for an href/src string that does not parse as an
absolute URL, the join against the base URL is appended when the join
succeeds; when the join also fails, the `.unwrap()` panics and resolution
aborts the extraction instead of returning a record. -/
theorem claim_C2_amended (base : Url) (s : String) :
    (∀ (e : ParseErr) (u : Url), Url.parse s = .error e → Url.join base s = .ok u →
       resolveStr base s = .ok (Url.toString u)) ∧
    (∀ e e2 : ParseErr, Url.parse s = .error e → Url.join base s = .error e2 →
       resolveStr base s = .error ()) := by
  constructor
  · intro e u h1 h2
    unfold resolveStr
    rw [h1, h2]
  · intro e e2 h1 h2
    unfold resolveStr
    rw [h1, h2]

/-- Claim C2, witness: `q31.html` resolves to its join against the base;
`"//"` aborts. -/
theorem claim_C2_amended_witness :
    resolveStr cBase "q31.html" = .ok (Url.toString c2u) ∧
    resolveStr cBase "//" = .error () :=
  ⟨(claim_C2_amended cBase "q31.html").1 .relativeUrlWithoutBase c2u rfl rfl,
   (claim_C2_amended cBase "//").2 .relativeUrlWithoutBase .emptyHost rfl rfl⟩

/-- Claim C3, counterexample: `c3doc` contains an element (a `span`) whose
class attribute is exactly the marker string, yet extraction returns no
record, contradicting the claim that one record is produced whenever such
an element exists: the selector only considers `div` elements. -/
theorem claim_C3_counterexample :
    c3span.attr "class" = some "kako" ∧
    c3span ∈ c3doc.descendants ∧
    extract_kakomon c3doc cBase = .ok none :=
  ⟨rfl, List.Mem.tail _ (List.Mem.head _), rfl⟩

/-- Claim C3 (amended): if no `div` element of the document has class
attribute exactly `"kako"`, extraction returns no record (`none`, not an
empty record, and regardless of marker classes on non-div elements);
otherwise the result is determined solely by the first such `div` in
document order — the record built from it when its processing completes,
no record if its processing panics — and all later matches are ignored. -/
theorem claim_C3_amended (doc : Node) (base : Url) :
    (doc.descendants.all
        (fun n => !(isElemTag "div" n && (n.attr "class" == some "kako"))) = true →
       extract_kakomon doc base = .ok none) ∧
    (∀ frag : Node,
       (selectTag "div" doc).find? (fun d => d.attr "class" == some "kako") = some frag →
       extract_kakomon doc base = (processKakomon frag base).map some) := by
  constructor
  · intro h
    unfold extract_kakomon
    have hf : (selectTag "div" doc).find? (fun d => d.attr "class" == some "kako") = none := by
      rw [List.find?_eq_none]
      intro x hx
      rw [List.all_eq_true] at h
      have hx2 : x ∈ doc.descendants ∧ isElemTag "div" x = true := List.mem_filter.1 hx
      have hh := h x hx2.1
      simp only [hx2.2, Bool.true_and, Bool.not_eq_eq_eq_not, Bool.not_true] at hh
      simp [hh]
    rw [hf]
  · intro frag h
    unfold extract_kakomon
    rw [h]

/-- Claim C3, witness: a document with no `kako` div yields `none`, and a
document with two `kako` divs is decided by the first one alone. -/
theorem claim_C3_amended_witness :
    extract_kakomon c3adoc cBase = .ok none ∧
    extract_kakomon c3bdoc cBase = (processKakomon c3bfrag cBase).map some :=
  ⟨(claim_C3_amended c3adoc cBase).1 rfl, (claim_C3_amended c3bdoc cBase).2 c3bfrag rfl⟩

/-- Claim C4: in the text field of the record returned by extraction, the
link-scan lines come first, then the body/option lines, then the
image-scan lines, independently of the elements' relative positions in the
fragment: the text is exactly the concatenation of the three scans'
contributions in that fixed order. -/
theorem claim_C4 (doc : Node) (base : Url) (frag : Node) (ls is2 : List String)
    (h1 : (selectTag "div" doc).find? (fun d => d.attr "class" == some "kako") = some frag)
    (h2 : (selectTag "a" frag).mapM (resolveAttr base "href") = .ok ls)
    (h3 : (selectTag "img" frag).mapM (resolveAttr base "src") = .ok is2) :
    extract_kakomon doc base
      = .ok (some { title := (bodyScan frag).2,
                    text := strConcat ls ++ (bodyScan frag).1 ++ strConcat is2 }) := by
  unfold extract_kakomon
  rw [h1]
  dsimp only
  rw [processKakomon_eq frag base ls is2 h2 h3]
  rfl

/-- Claim C4, witness: on `c4doc`, whose image precedes nothing and whose
elements are interleaved, the text is link line, body lines, image line. -/
theorem claim_C4_witness :
    extract_kakomon c4doc cBase
      = .ok (some { title := (bodyScan c4frag).2,
                    text := strConcat c4ls ++ (bodyScan c4frag).1 ++ strConcat c4is }) :=
  claim_C4 c4doc cBase c4frag c4ls c4is rfl rfl rfl

/-- Claim C5: inside an `ansbg` container the list items found by the
`ul > li` selector are emitted in document order with prefixes `1. `,
`2. `, `3. `, … with no gaps, each line newline-terminated (the `i`-th
item, 0-based, gets prefix `i+1`), and the numbering restarts at `0 + 1`
for each distinct `ansbg` container since the body scan starts the loop
counter at `0` anew for each container. -/
theorem claim_C5 :
    (∀ l : List Node, ansbgLoop 0 l ""
        = strConcat ((List.enum l).map
            (fun p => toString (p.1 + 1) ++ ". " ++ nodeText p.2 ++ "\n"))) ∧
    (∀ (tx ti : String) (cs : List Node),
        bodyStep (tx, ti) (.element "div" [("class", "ansbg")] cs)
          = (ansbgLoop 0 (selectUlLi (.element "div" [("class", "ansbg")] cs)) tx, ti)) ∧
    (∀ (l : List Node) (tx : String), ansbgLoop 0 l tx = tx ++ ansbgLoop 0 l "") := by
  refine ⟨fun l => ?_, fun tx ti cs => rfl, fun l tx => ansbgLoop_shift l tx 0⟩
  rw [ansbgLoop_enum l 0 "", strNilAppend]
  rfl

/-- Claim C6: an href string that parses as a standalone absolute URL
resolves to that URL's normalized string form, unchanged by and
independent of the base URL. -/
theorem claim_C6 (b1 b2 : Url) (s : String) (u : Url) (h : Url.parse s = .ok u) :
    resolveStr b1 s = .ok (Url.toString u) ∧ resolveStr b1 s = resolveStr b2 s := by
  unfold resolveStr
  rw [h]
  exact ⟨rfl, rfl⟩

/-- Claim C6, witness: `http://x.example/a` resolves to itself under two
different bases. -/
theorem claim_C6_witness :
    resolveStr cBase "http://x.example/a" = .ok (Url.toString c6u) ∧
    resolveStr cBase "http://x.example/a" = resolveStr c6base2 "http://x.example/a" :=
  claim_C6 cBase c6base2 "http://x.example/a" c6u rfl

/-- Claim C7, counterexample: the protocol-relative reference
`//b.example/y` does not parse as a standalone absolute URL, yet its join
against `cBase` (`http://h.example/...`) has authority `b.example`, not the
base's `h.example`, contradicting the claim that the resolved result's
authority always equals the base's. -/
theorem claim_C7_counterexample :
    Url.parse "//b.example/y" = .error .relativeUrlWithoutBase ∧
    Url.join cBase "//b.example/y" = .ok c7u ∧
    c7u.host ≠ cBase.host ∧
    resolveStr cBase "//b.example/y" = .ok "http://b.example/y" :=
  ⟨rfl, rfl, by decide, rfl⟩

/-- Claim C7 (amended): for an href that does not parse as a standalone
absolute URL, a successful join against the base yields a URL whose scheme
equals the base's, and whose authority equals the base's unless the href
is a network-path reference (begins with two slashes), which replaces the
authority. -/
theorem claim_C7_amended (base : Url) (s : String) (e : ParseErr) (u : Url)
    (h1 : Url.parse s = .error e) (h2 : Url.join base s = .ok u) :
    u.scheme = base.scheme ∧ (isNetworkPathRef s = false → u.host = base.host) := by
  unfold Url.join at h2
  cases hs : splitScheme s with
  | none =>
    simp only [hs] at h2
    obtain ⟨hsch, hh⟩ := joinRelative_props base s.data u h2
    refine ⟨hsch, fun hn => ?_⟩
    cases hh with
    | inl hh => exact hh
    | inr hh =>
      exfalso
      have ht : isNetworkPathRef s = true := hh.1
      rw [ht] at hn
      exact absurd hn (by simp)
  | some p =>
    obtain ⟨sc, rest⟩ := p
    simp only [hs] at h2
    split at h2
    · rename_i hc
      obtain ⟨hsch, hh⟩ := joinRelative_props base rest.data u h2
      refine ⟨hsch, fun hn => ?_⟩
      cases hh with
      | inl hh => exact hh
      | inr hh =>
        exfalso
        rw [Bool.and_eq_true] at hc
        have hsc_special : sc ∈ specialSchemes := of_decide_eq_true hc.2
        have hsc_eq : sc = base.scheme := by simpa using hc.1
        unfold Url.parse at h1
        simp only [hs] at h1
        rw [if_pos hsc_special] at h1
        rw [hsc_eq] at h1
        rw [h1] at hh
        exact absurd hh.2 (by simp)
    · rw [h1] at h2
      exact absurd h2 (by simp)

/-- Claim C7, witness: the relative reference `q31.html` joined against
`cBase` keeps the base's scheme and authority. -/
theorem claim_C7_amended_witness :
    c7w.scheme = cBase.scheme ∧
    (isNetworkPathRef "q31.html" = false → c7w.host = cBase.host) :=
  claim_C7_amended cBase "q31.html" .relativeUrlWithoutBase c7w rfl rfl

/-- Claim C8: class matching is exact full-attribute equality: a div
carrying the marker among multiple classes (`"kako extra"`) does not
satisfy the fragment predicate, a div classed `"mondai extra"` is ignored
by the body scan, and a document whose divs carry `kako` only among other
classes yields no record. -/
theorem claim_C8 :
    (∀ cs : List Node,
       ((Node.element "div" [("class", "kako extra")] cs).attr "class" == some "kako") = false) ∧
    (∀ (tx ti : String) (cs : List Node),
       bodyStep (tx, ti) (.element "div" [("class", "mondai extra")] cs) = (tx, ti)) ∧
    extract_kakomon c8doc cBase = .ok none :=
  ⟨fun _cs => rfl, fun _tx _ti _cs => rfl, rfl⟩

/-- Claim C9: the payload consists of exactly three ordered parts — a
header block carrying the title verbatim, a divider, and a section block
carrying the text verbatim — so extracting the header text and section
text from the payload recovers title and text unchanged. -/
theorem claim_C9 (k : Kakomon) :
    payloadHeaderText (buildSlackBody k) = some k.title ∧
    payloadSectionText (buildSlackBody k) = some k.text ∧
    (jsonBlocks (buildSlackBody k)).map List.length = some 3 ∧
    (jsonBlocks (buildSlackBody k)).bind (fun bs => bs[1]?)
      = some (.obj [("type", .str "divider")]) :=
  ⟨rfl, rfl, rfl, rfl⟩

/-- Claim C10: the title of the returned record is written only by the
body scan's `anslink` branch: it equals the concatenation of the
`anslink`-classed divs' inner texts (so the link scan, `mondai` branch,
`ansbg` branch and image scan leave it unchanged, and no newline is ever
appended to it), and any non-`anslink` body-scan step leaves the title
accumulator untouched. -/
theorem claim_C10 (frag : Node) (base : Url) (k : Kakomon)
    (h : processKakomon frag base = .ok k) :
    k.title = (bodyScan frag).2 ∧
    (bodyScan frag).2 = strConcat ((selectTag "div" frag).filterMap
        (fun d => if d.attr "class" == some "anslink" then some (nodeText d) else none)) ∧
    (∀ (tx ti : String) (d : Node), d.attr "class" ≠ some "anslink" →
        (bodyStep (tx, ti) d).2 = ti) := by
  exact ⟨processKakomon_title frag base k h, bodyFold_title _,
    fun tx ti d hd => bodyStep_title_other (tx, ti) d hd⟩

/-- Claim C10, witness: on `c4frag` the extracted title is exactly the
`anslink` text `T`, and a `mondai` step leaves the title untouched. -/
theorem claim_C10_witness :
    c10k.title = (bodyScan c4frag).2 ∧
    (bodyScan c4frag).2 = strConcat ((selectTag "div" c4frag).filterMap
        (fun d => if d.attr "class" == some "anslink" then some (nodeText d) else none)) ∧
    (bodyStep ("a", "b") (.element "div" [("class", "mondai")] [])).2 = "b" :=
  ⟨(claim_C10 c4frag cBase c10k rfl).1,
   (claim_C10 c4frag cBase c10k rfl).2.1,
   (claim_C10 c4frag cBase c10k rfl).2.2 "a" "b" _ (by decide)⟩
